import Mathlib

/-!
Verification of the job lifecycle and provider-routing engine of the
AI video generation platform.

The data model (job status enumeration, job record, provider health record)
is embedded from `frontend/src/types/index.ts` and `frontend/src/services/api.ts`.
The engine components (Retry/Backoff Policy, Health Tracker classification,
Provider Selector, Job State Machine operations) are not shipped in this
snapshot of the repository (only their documentation, types and callers are),
so they are modelled from the specification, as marked on each definition.
-/

namespace VideoGen

/-- Job status enumeration from `frontend/src/types/index.ts`:
`'queued' | 'processing' | 'completed' | 'failed' | 'cancelled'`. -/
inductive JobStatus where
  | queued
  | processing
  | completed
  | failed
  | cancelled
deriving DecidableEq, Repr

/-- Terminal statuses per the spec: `completed`, `failed`, `cancelled`. -/
def JobStatus.isTerminal : JobStatus → Bool
  | .completed => true
  | .failed => true
  | .cancelled => true
  | _ => false

/-- Job record, embedded from the `Job` interface of
`frontend/src/types/index.ts` and `frontend/src/services/api.ts`
(string timestamps are modelled as rational instants; the opaque
`result` payload is modelled as an opaque string). The spec-only field
`nextEligibleAt` (§3, backoff eligibility) is included because the
state-machine operations modelled from the spec read and write it. -/
structure Job where
  id : String
  userId : String
  status : JobStatus
  prompt : String
  retryCount : Nat
  maxRetries : Nat
  usedProvider : Option String
  usedModel : Option String
  generationTimeMs : Option ℚ
  errorMessage : Option String
  result : Option String
  nextEligibleAt : Option ℚ
  createdAt : ℚ
  startedAt : Option ℚ
  completedAt : Option ℚ
deriving DecidableEq, Repr

/-- Provider health classification from `frontend/src/types/index.ts`:
`'healthy' | 'degraded' | 'unhealthy'`. -/
inductive HealthStatus where
  | healthy
  | degraded
  | unhealthy
deriving DecidableEq, Repr

/-- Severity rank of a health status: `healthy` is best (0), `unhealthy`
is worst (2). A larger rank is a worse status. -/
def HealthStatus.rank : HealthStatus → Nat
  | .healthy => 0
  | .degraded => 1
  | .unhealthy => 2

/-- Provider health record from the `ProviderHealth` interface of
`frontend/src/types/index.ts`. -/
structure ProviderHealth where
  provider : String
  status : HealthStatus
  lastCheckedAt : ℚ
  consecutiveFailures : Nat
  avgResponseTimeMs : ℚ
  costPerRequest : ℚ
deriving DecidableEq, Repr

/-! ## Retry/Backoff Policy (spec §4.4, README "Retry Policy") -/

/-- Failure reasons distinguished by the spec (§4.5, §7):
provider-reported error, timeout, and no provider available. -/
inductive FailureReason where
  | providerError
  | timeout
  | noProviderAvailable
deriving DecidableEq, Repr

/-- Backoff configuration. The README documents base delay 60s and max
backoff 3600s; the spec keeps both as configuration (the failure
classification knob of §4.4 picks which configuration applies). -/
structure RetryConfig where
  baseBackoffSeconds : ℚ
  maxBackoffSeconds : ℚ
deriving DecidableEq, Repr

/-- Outcome of the Retry/Backoff Policy (spec §4.4):
`retry(nextEligibleAt)` or `exhausted`. -/
inductive RetryDecision where
  | exhausted
  | retry (nextEligibleAt : ℚ)
deriving DecidableEq, Repr

/-- Modelled from the spec: pre-jitter backoff delay of §4.4,
`min(maxBackoffSeconds, baseBackoffSeconds * 2^retryCount)`. The backend
module computing it (`app/celery_app/tasks.py` retry logic) is not in this
snapshot. -/
def backoffDelay (cfg : RetryConfig) (retryCount : Nat) : ℚ :=
  min cfg.maxBackoffSeconds (cfg.baseBackoffSeconds * 2 ^ retryCount)

/-- Modelled from the spec: symmetric jitter of §4.4. The injected jitter
source supplies `u ∈ [0, 1]` and the jittered delay is
`delay * (1/2 + u)`, uniform over `[0.5×delay, 1.5×delay]`. -/
def applyJitter (delay : ℚ) (u : ℚ) : ℚ :=
  delay * (1 / 2 + u)

/-- Modelled from the spec: `onFailure(job, failureReason, now)` of §4.4.
If `job.retryCount + 1 > job.maxRetries` return `exhausted`; otherwise
return `retry(now + jittered delay)`. The jitter source is injected as
`u`. The backend module implementing it is not in this snapshot. -/
def onFailure (cfg : RetryConfig) (job : Job) (_reason : FailureReason)
    (now : ℚ) (u : ℚ) : RetryDecision :=
  if job.maxRetries < job.retryCount + 1 then
    .exhausted
  else
    .retry (now + applyJitter (backoffDelay cfg job.retryCount) u)

/-! ## Provider Health Tracker classification (spec §4.1) -/

/-- Health classification thresholds (spec §4.1): they are configuration,
not hardcoded policy. -/
structure HealthConfig where
  unhealthyFailureThreshold : Nat
  degradedFailureThreshold : Nat
  latencyCeilingMs : ℚ
deriving DecidableEq, Repr

/-- Modelled from the spec: `classify(consecutiveFailures, avgResponseTimeMs)`
of §4.1: `unhealthy` when `consecutiveFailures >= unhealthyFailureThreshold`;
`degraded` when `consecutiveFailures >= degradedFailureThreshold` or
`avgResponseTimeMs` exceeds the latency ceiling; otherwise `healthy`.
The backend module implementing it is not in this snapshot. -/
def classify (cfg : HealthConfig) (consecutiveFailures : Nat)
    (avgResponseTimeMs : ℚ) : HealthStatus :=
  if cfg.unhealthyFailureThreshold ≤ consecutiveFailures then
    .unhealthy
  else if cfg.degradedFailureThreshold ≤ consecutiveFailures ∨
      cfg.latencyCeilingMs < avgResponseTimeMs then
    .degraded
  else
    .healthy

/-! ## Provider Selector (spec §4.2) -/

/-- Strict "ranks strictly better than" order on provider health records
(spec §4.2): healthy before degraded before unhealthy, then ascending
`avgResponseTimeMs`, then ascending `costPerRequest`. -/
def Better (p q : ProviderHealth) : Prop :=
  p.status.rank < q.status.rank ∨
    (p.status.rank = q.status.rank ∧
      (p.avgResponseTimeMs < q.avgResponseTimeMs ∨
        (p.avgResponseTimeMs = q.avgResponseTimeMs ∧
          p.costPerRequest < q.costPerRequest)))

instance (p q : ProviderHealth) : Decidable (Better p q) := by
  unfold Better; infer_instance

/-- Top-ranked element of a list under `Better` (first among ties). -/
def pickBest : List ProviderHealth → Option ProviderHealth
  | [] => none
  | p :: ps =>
    match pickBest ps with
    | none => some p
    | some q => if Better q p then some q else some p

/-- Eligible remainder of the candidate set: providers whose status is
not `unhealthy` (spec §4.2 filter step). -/
def eligibleProviders (candidates : List ProviderHealth) : List ProviderHealth :=
  candidates.filter fun p => decide (p.status ≠ .unhealthy)

/-- Modelled from the spec: `select(candidateProviders, jobHint)` of §4.2.
Filter out `unhealthy` providers; if the hint names a remaining provider,
prefer it; otherwise return the top-ranked remaining provider; if the
filtered set is empty, signal no provider (`none`) — unless the explicit,
configurable degraded-mode fallback of §4.2 is enabled, in which case the
filter is relaxed to all candidates. The backend module implementing the
selector is not in this snapshot. -/
def select (fallbackEnabled : Bool) (candidates : List ProviderHealth)
    (jobHint : Option String) : Option ProviderHealth :=
  if (eligibleProviders candidates).isEmpty then
    if fallbackEnabled then pickBest candidates else none
  else
    match jobHint with
    | some name =>
      match (eligibleProviders candidates).find?
          (fun p => decide (p.provider = name)) with
      | some p => some p
      | none => pickBest (eligibleProviders candidates)
    | none => pickBest (eligibleProviders candidates)

/-! ## Job State Machine operations (spec §4.3, §6) -/

/-- Backoff eligibility of a job at instant `now` (spec §4.3):
`nextEligibleAt` is null or in the past. -/
def Job.eligibleAt (j : Job) (now : ℚ) : Bool :=
  match j.nextEligibleAt with
  | none => true
  | some t => decide (t ≤ now)

/-- Modelled from the spec: the Dispatcher's atomic claim
(`queued → processing`, spec §4.3 and §6 `tryClaim`): succeeds exactly
when `status == queued` and the job is eligible, simultaneously writing
`processing`; otherwise reports failure and leaves the job unchanged.
The backend module implementing it is not in this snapshot. -/
def tryClaim (now : ℚ) (j : Job) : Bool × Job :=
  if j.status = .queued ∧ j.eligibleAt now = true then
    (true, { j with status := .processing,
                    startedAt := some (j.startedAt.getD now) })
  else
    (false, j)

/-- Modelled from the spec: `processing → completed` (spec §4.3): on
provider success set `result`, `completedAt`, `usedProvider`/`usedModel`,
`generationTimeMs`. Guarded on `processing`. The backend module
implementing it is not in this snapshot. -/
def completeJob (now : ℚ) (res provider model : String) (genMs : ℚ)
    (j : Job) : Job :=
  if j.status = .processing then
    { j with status := .completed, result := some res,
             completedAt := some now, usedProvider := some provider,
             usedModel := some model, generationTimeMs := some genMs }
  else j

/-- Modelled from the spec: `processing → (queued | failed)` (spec §4.3),
decided by the Retry/Backoff Policy: on `exhausted` the job becomes
terminal `failed` with `errorMessage` set; on `retry(t)` it is re-queued
with incremented `retryCount`, `nextEligibleAt := t`, and the assigned
provider cleared (spec §3). The backend module implementing it is not in
this snapshot. -/
def failJob (cfg : RetryConfig) (reason : FailureReason) (msg : String)
    (now u : ℚ) (j : Job) : Job :=
  if j.status = .processing then
    match onFailure cfg j reason now u with
    | .exhausted =>
      { j with status := .failed, errorMessage := some msg,
               completedAt := some now }
    | .retry t =>
      { j with status := .queued, retryCount := j.retryCount + 1,
               nextEligibleAt := some t, usedProvider := none,
               usedModel := none }
  else j

/-- Modelled from the spec: `queued|processing → cancelled` (spec §4.3):
allowed only while the job is not yet terminal; cancelling a terminal job
is a no-op returning the unchanged job (idempotent, not an error). The
backend cancel endpoint (`jobsApi.cancel` posts to `/jobs/{id}/cancel`)
is not in this snapshot. -/
def cancelJob (j : Job) : Job :=
  if j.status = .queued ∨ j.status = .processing then
    { j with status := .cancelled }
  else j

/-- Modelled from the spec: user-initiated manual retry
(`failed|cancelled → queued`, spec §4.3 and §7): rejected synchronously
with a descriptive reason when the job is not in a retriable status or
retries are exhausted; on success the job is re-queued with `retryCount`
preserved. The backend retry endpoint (`jobsApi.retry` posts to
`/jobs/{id}/retry`) is not in this snapshot. -/
def manualRetry (j : Job) : Except String Job :=
  if ¬(j.status = .failed ∨ j.status = .cancelled) then
    .error "job is not in a retriable status"
  else if j.maxRetries ≤ j.retryCount then
    .error "retries already exhausted"
  else
    .ok { j with status := .queued, nextEligibleAt := none,
                 usedProvider := none, usedModel := none }

/-- One engine operation on a job record (the union of the state-machine
transitions of spec §4.3 and the job control surface of §6). -/
inductive EngineOp where
  | claim (now : ℚ)
  | complete (now : ℚ) (res provider model : String) (genMs : ℚ)
  | fail (cfg : RetryConfig) (reason : FailureReason) (msg : String)
      (now u : ℚ)
  | cancel
  | retryRequest

/-- Effect of one engine operation on a job record; a rejected manual
retry leaves the job unchanged. -/
def applyOp : EngineOp → Job → Job
  | .claim now, j => (tryClaim now j).2
  | .complete now res provider model genMs, j =>
      completeJob now res provider model genMs j
  | .fail cfg reason msg now u, j => failJob cfg reason msg now u j
  | .cancel, j => cancelJob j
  | .retryRequest, j =>
      match manualRetry j with
      | .ok j2 => j2
      | .error _ => j

/-- Sequentialization of `n` concurrent claim attempts on one job (the
atomic compare-and-swap of spec §5 serializes them): each attempt runs
`tryClaim` on the state left by the previous one; returns the number of
successful claims and the final job state. -/
def runClaims (now : ℚ) : Nat → Job → Nat × Job
  | 0, j => (0, j)
  | n + 1, j =>
    let r := tryClaim now j
    let rest := runClaims now n r.2
    ((if r.1 then 1 else 0) + rest.1, rest.2)

/-! ## Frontend embeddings (files under `src/frontend`) -/

/-- Icon components used by the job cards. -/
inductive CardIcon where
  | clock
  | loader2
  | checkCircle
  | alertCircle
  | xCircle
deriving DecidableEq, Repr

/-- Status icon map of the current `JobCard.tsx` (lines 31-37): an object
literal with all five status keys, indexed by `job.status`. -/
def jobCardStatusIcon : JobStatus → CardIcon
  | .queued => .clock
  | .processing => .loader2
  | .completed => .checkCircle
  | .failed => .alertCircle
  | .cancelled => .xCircle

/-- Status icon map of the jobs-list `JobCard` bundled in the
`Navbar.tsx` file (lines 98-103): an object literal with only four keys
(`queued`, `processing`, `completed`, `failed`), indexed by `job.status`;
a missing key yields `undefined`, modelled as `none`. -/
def jobsListStatusIcon : JobStatus → Option CardIcon
  | .queued => some .clock
  | .processing => some .loader2
  | .completed => some .checkCircle
  | .failed => some .alertCircle
  | .cancelled => none

/-- Status color map of the jobs-list `JobCard` bundled in the
`Navbar.tsx` file (lines 91-96): an object literal with only four keys,
indexed by `job.status`; a missing key yields `undefined`, modelled as
`none`. -/
def jobsListStatusColor : JobStatus → Option String
  | .queued => some "bg-gray-100 text-gray-800"
  | .processing => some "bg-blue-100 text-blue-800"
  | .completed => some "bg-green-100 text-green-800"
  | .failed => some "bg-red-100 text-red-800"
  | .cancelled => none

/-- Form state of the create-job page
(`frontend/src/app/create/page.tsx`). -/
structure CreateFormState where
  prompt : String
  model : String
  resolution : String
  quality : String
  duration : Option Nat
  isAuthenticated : Bool
deriving DecidableEq, Repr

/-- Payload of `jobsApi.create` as assembled by the create-job page. -/
structure CreateJobPayload where
  prompt : String
  model : Option String
  resolution : String
  quality : String
  duration : Option Nat
  maxRetries : Nat
deriving DecidableEq, Repr

/-- JavaScript string whitespace test used by `prompt.trim()`:
a string trims to the empty string exactly when every character is
whitespace. -/
def jsBlank (s : String) : Bool :=
  s.data.all fun c => c = ' ' ∨ c = '\t' ∨ c = '\n' ∨ c = '\r'

/-- `handleSubmit` of `frontend/src/app/create/page.tsx` (lines 20-45):
returns the request sent to `jobsApi.create`, or `none` when no request
is sent (blank prompt — `!prompt.trim()` — or not authenticated).
JavaScript truthiness on `model || undefined` and
`duration || undefined` maps the empty string and zero to `undefined`.
`maxRetries` is the literal `3`. -/
def handleSubmit (s : CreateFormState) : Option CreateJobPayload :=
  if jsBlank s.prompt then none
  else if s.isAuthenticated = false then none
  else
    some { prompt := s.prompt
           model := if s.model = "" then none else some s.model
           resolution := s.resolution
           quality := s.quality
           duration := s.duration.bind fun n => if n = 0 then none else some n
           maxRetries := 3 }

/-! ## Concrete records used to evaluate the development on inputs -/

/-- A freshly created queued job (`maxRetries = 3` as the create page
sends, `retryCount = 0`). -/
def sampleQueuedJob : Job :=
  { id := "job-q", userId := "u1", status := .queued, prompt := "a sunset",
    retryCount := 0, maxRetries := 3, usedProvider := none,
    usedModel := none, generationTimeMs := none, errorMessage := none,
    result := none, nextEligibleAt := none, createdAt := 0,
    startedAt := none, completedAt := none }

/-- A cancelled job that was never attempted (`retryCount = 0`). -/
def sampleCancelledJob : Job :=
  { sampleQueuedJob with id := "job-c", status := .cancelled }

/-- A completed job. -/
def sampleCompletedJob : Job :=
  { sampleQueuedJob with
    id := "job-d", status := .completed,
    result := some "video.mp4", completedAt := some 90 }

/-- A processing job on its second attempt (`retryCount = 1`). -/
def sampleFailingJob : Job :=
  { sampleQueuedJob with
    id := "job-p", status := .processing,
    retryCount := 1, startedAt := some 10 }

/-- A failed job with retries exhausted (`retryCount = maxRetries = 3`). -/
def sampleFailedJob : Job :=
  { sampleQueuedJob with
    id := "job-f", status := .failed,
    retryCount := 3, errorMessage := some "Timeout" }

/-- The retry configuration documented in the backend README:
base delay 60s, max backoff 3600s. -/
def readmeRetryConfig : RetryConfig :=
  { baseBackoffSeconds := 60, maxBackoffSeconds := 3600 }

/-- The example thresholds of spec §4.1: unhealthy at 5 consecutive
failures, degraded at 2, with a 1000ms latency ceiling. -/
def sampleHealthConfig : HealthConfig :=
  { unhealthyFailureThreshold := 5, degradedFailureThreshold := 2,
    latencyCeilingMs := 1000 }

/-- A healthy provider record. -/
def sampleHealthy : ProviderHealth :=
  { provider := "runway", status := .healthy, lastCheckedAt := 0,
    consecutiveFailures := 0, avgResponseTimeMs := 200,
    costPerRequest := 1 }

/-- A degraded provider record. -/
def sampleDegraded : ProviderHealth :=
  { provider := "pika", status := .degraded, lastCheckedAt := 0,
    consecutiveFailures := 2, avgResponseTimeMs := 400,
    costPerRequest := 1 }

/-- An unhealthy provider record. -/
def sampleUnhealthy : ProviderHealth :=
  { provider := "sora", status := .unhealthy, lastCheckedAt := 0,
    consecutiveFailures := 6, avgResponseTimeMs := 900,
    costPerRequest := 2 }

/-- A filled-in create-job form from an authenticated session. -/
def sampleForm : CreateFormState :=
  { prompt := "a sunset over the ocean", model := "", resolution := "1080p",
    quality := "high", duration := none, isAuthenticated := true }

/-! ## Helper lemmas -/

theorem better_irrefl (p : ProviderHealth) : ¬ Better p p := by
  unfold Better
  push_neg
  refine ⟨le_refl _, fun _ => ⟨le_refl _, fun _ => le_refl _⟩⟩

theorem better_asymm {p q : ProviderHealth} (h : Better p q) :
    ¬ Better q p := by
  unfold Better at h ⊢
  push_neg
  rcases h with h | ⟨he, h2⟩
  · exact ⟨le_of_lt h, fun hqp => absurd hqp (by omega)⟩
  · refine ⟨he.le, fun _ => ?_⟩
    rcases h2 with h2 | ⟨he2, h3⟩
    · exact ⟨le_of_lt h2, fun hba => absurd hba (by linarith)⟩
    · exact ⟨he2.le, fun _ => le_of_lt h3⟩

theorem better_negtrans {p q r : ProviderHealth} (h1 : ¬ Better p q)
    (h2 : ¬ Better q r) : ¬ Better p r := by
  unfold Better at h1 h2 ⊢
  push_neg at h1 h2
  obtain ⟨ha1, hb1⟩ := h1
  obtain ⟨ha2, hb2⟩ := h2
  intro h
  rcases h with h | ⟨he, h2⟩
  · omega
  · have hqp : q.status.rank = p.status.rank := by omega
    have hrq : r.status.rank = q.status.rank := by omega
    obtain ⟨hc1, hd1⟩ := hb1 hqp.symm
    obtain ⟨hc2, hd2⟩ := hb2 hrq.symm
    rcases h2 with h2 | ⟨he2, h3⟩
    · linarith
    · have hbq : q.avgResponseTimeMs = p.avgResponseTimeMs := by linarith
      have hbr : r.avgResponseTimeMs = q.avgResponseTimeMs := by linarith
      have := hd1 hbq.symm
      have := hd2 hbr.symm
      linarith

theorem pickBest_mem : ∀ {l : List ProviderHealth} {p : ProviderHealth},
    pickBest l = some p → p ∈ l := by
  intro l
  induction l with
  | nil => intro p h; simp [pickBest] at h
  | cons a as ih =>
    intro p h
    unfold pickBest at h
    cases hrec : pickBest as with
    | none =>
      rw [hrec] at h
      simp at h
      simp [h]
    | some q =>
      rw [hrec] at h
      by_cases hb : Better q a
      · simp [hb] at h
        subst h
        exact List.mem_cons_of_mem _ (ih hrec)
      · simp [hb] at h
        simp [h]

theorem pickBest_eq_none {l : List ProviderHealth} :
    pickBest l = none ↔ l = [] := by
  cases l with
  | nil => simp [pickBest]
  | cons a as =>
    simp only [pickBest]
    cases pickBest as with
    | none => simp
    | some q =>
      by_cases hb : Better q a <;> simp [hb]

theorem pickBest_min : ∀ {l : List ProviderHealth} {p : ProviderHealth},
    pickBest l = some p → ∀ q ∈ l, ¬ Better q p := by
  intro l
  induction l with
  | nil => intro p h; simp [pickBest] at h
  | cons a as ih =>
    intro p h q hq
    unfold pickBest at h
    cases hrec : pickBest as with
    | none =>
      rw [hrec] at h
      simp at h
      subst h
      have : as = [] := pickBest_eq_none.mp hrec
      subst this
      simp at hq
      subst hq
      exact better_irrefl _
    | some b =>
      rw [hrec] at h
      by_cases hb : Better b a
      · simp [hb] at h
        subst h
        rcases List.mem_cons.mp hq with rfl | hq2
        · exact better_asymm hb
        · exact ih hrec q hq2
      · simp [hb] at h
        subst h
        rcases List.mem_cons.mp hq with rfl | hq2
        · exact better_irrefl _
        · exact better_negtrans (ih hrec q hq2) hb

theorem eligibleProviders_subset {candidates : List ProviderHealth}
    {p : ProviderHealth} (h : p ∈ eligibleProviders candidates) :
    p ∈ candidates :=
  List.mem_of_mem_filter h

theorem mem_eligibleProviders {candidates : List ProviderHealth}
    {p : ProviderHealth} :
    p ∈ eligibleProviders candidates ↔
      p ∈ candidates ∧ p.status ≠ .unhealthy := by
  unfold eligibleProviders
  rw [List.mem_filter]
  simp

theorem eligibleProviders_eq_nil {candidates : List ProviderHealth} :
    eligibleProviders candidates = [] ↔
      ∀ q ∈ candidates, q.status = .unhealthy := by
  unfold eligibleProviders
  rw [List.filter_eq_nil_iff]
  constructor
  · intro h q hq
    have := h q hq
    simpa using this
  · intro h q hq
    simpa using h q hq

theorem runClaims_stuck (now : ℚ) :
    ∀ (n : Nat) (j : Job), j.status ≠ .queued →
      runClaims now n j = (0, j) := by
  intro n
  induction n with
  | zero => intro j _; rfl
  | succ m ih =>
    intro j hj
    have hclaim : tryClaim now j = (false, j) := by
      unfold tryClaim
      simp [hj]
    simp [runClaims, hclaim, ih j hj]

theorem select_of_empty {candidates : List ProviderHealth}
    (h : (eligibleProviders candidates).isEmpty = true)
    (fallbackEnabled : Bool) (jobHint : Option String) :
    select fallbackEnabled candidates jobHint =
      if fallbackEnabled then pickBest candidates else none := by
  simp [select, h]

theorem select_of_nonempty_no_hint {candidates : List ProviderHealth}
    (h : ¬ (eligibleProviders candidates).isEmpty = true)
    (fallbackEnabled : Bool) :
    select fallbackEnabled candidates none =
      pickBest (eligibleProviders candidates) := by
  simp [select, h]

theorem select_of_nonempty_hint_found {candidates : List ProviderHealth}
    (h : ¬ (eligibleProviders candidates).isEmpty = true)
    (fallbackEnabled : Bool) {name : String} {p : ProviderHealth}
    (hfind : (eligibleProviders candidates).find?
      (fun q => decide (q.provider = name)) = some p) :
    select fallbackEnabled candidates (some name) = some p := by
  simp [select, h, hfind]

theorem select_of_nonempty_hint_missing {candidates : List ProviderHealth}
    (h : ¬ (eligibleProviders candidates).isEmpty = true)
    (fallbackEnabled : Bool) {name : String}
    (hfind : (eligibleProviders candidates).find?
      (fun q => decide (q.provider = name)) = none) :
    select fallbackEnabled candidates (some name) =
      pickBest (eligibleProviders candidates) := by
  simp [select, h, hfind]

/-! ## Claim theorems -/

/-- C2: for every job and time `now`, the Retry/Backoff Policy's
`onFailure` returns `exhausted` exactly when
`retryCount + 1 > maxRetries`; otherwise it returns `retry(now + delay)`
whose pre-jitter delay is `min(maxBackoffSeconds,
baseBackoffSeconds * 2^retryCount)`; and the result depends only on
`(retryCount, maxRetries, failureReason, now)` and the injected jitter
value, with no hidden state. -/
theorem onFailure_exhausted_iff_and_delay (cfg : RetryConfig) (j : Job)
    (reason : FailureReason) (now u : ℚ) :
    (onFailure cfg j reason now u = .exhausted ↔
      j.maxRetries < j.retryCount + 1) ∧
    (j.retryCount + 1 ≤ j.maxRetries →
      onFailure cfg j reason now u =
        .retry (now + applyJitter
          (min cfg.maxBackoffSeconds
            (cfg.baseBackoffSeconds * 2 ^ j.retryCount)) u)) ∧
    (∀ j2 : Job, j2.retryCount = j.retryCount →
      j2.maxRetries = j.maxRetries →
      onFailure cfg j2 reason now u = onFailure cfg j reason now u) := by
  refine ⟨?_, ?_, ?_⟩
  · by_cases h : j.maxRetries < j.retryCount + 1 <;>
      simp [onFailure, h]
  · intro h
    have h2 : ¬ j.maxRetries < j.retryCount + 1 := by omega
    simp [onFailure, h2, backoffDelay]
  · intro j2 h1 h2
    simp [onFailure, backoffDelay, h1, h2]

/-- Witness for C2 at the README configuration: a processing job on its
second attempt (`retryCount = 1`, `maxRetries = 3`) is retried with
pre-jitter delay `min(3600, 60 * 2^1)`. -/
theorem onFailure_exhausted_iff_and_delay_witness :
    sampleFailingJob.retryCount + 1 ≤ sampleFailingJob.maxRetries ∧
    onFailure readmeRetryConfig sampleFailingJob .timeout 1000 (1 / 4) =
      .retry (1000 + applyJitter
        (min readmeRetryConfig.maxBackoffSeconds
          (readmeRetryConfig.baseBackoffSeconds *
            2 ^ sampleFailingJob.retryCount)) (1 / 4)) :=
  ⟨by decide,
    (onFailure_exhausted_iff_and_delay readmeRetryConfig sampleFailingJob
      .timeout 1000 (1 / 4)).2.1 (by decide)⟩

/-- C3: the pre-jitter backoff delay is non-decreasing in `retryCount`
up to the configured cap, and the jittered eligibility time returned by
`onFailure` always lies within `[0.5×delay, 1.5×delay]` after `now`,
for any jitter value `u ∈ [0, 1]` from the injected source. -/
theorem backoff_monotone_and_jitter_bounded (cfg : RetryConfig)
    (hbase : 0 ≤ cfg.baseBackoffSeconds)
    (hmax : 0 ≤ cfg.maxBackoffSeconds) :
    (∀ r1 r2 : Nat, r1 ≤ r2 →
      backoffDelay cfg r1 ≤ backoffDelay cfg r2) ∧
    (∀ (j : Job) (reason : FailureReason) (now u t : ℚ),
      0 ≤ u → u ≤ 1 →
      onFailure cfg j reason now u = .retry t →
      now + backoffDelay cfg j.retryCount / 2 ≤ t ∧
        t ≤ now + 3 / 2 * backoffDelay cfg j.retryCount) := by
  constructor
  · intro r1 r2 h
    unfold backoffDelay
    refine min_le_min (le_refl _) ?_
    exact mul_le_mul_of_nonneg_left
      (pow_le_pow_right₀ (by norm_num) h) hbase
  · intro j reason now u t hu0 hu1 hret
    have hdelay : 0 ≤ backoffDelay cfg j.retryCount := by
      unfold backoffDelay
      exact le_min hmax (by positivity)
    unfold onFailure at hret
    split at hret
    · exact absurd hret (by simp)
    · have ht : t = now + applyJitter (backoffDelay cfg j.retryCount) u := by
        exact (RetryDecision.retry.injEq _ _).mp hret.symm
      subst ht
      unfold applyJitter
      constructor
      · nlinarith
      · nlinarith

/-- Witness for C3 at the README configuration: the delay grows from
attempt 0 to attempt 2, and a retry of `sampleFailingJob` at jitter
`u = 1/4` stays within the jittered bounds. -/
theorem backoff_monotone_and_jitter_bounded_witness :
    (0 : ℚ) ≤ readmeRetryConfig.baseBackoffSeconds ∧
    (0 : ℚ) ≤ readmeRetryConfig.maxBackoffSeconds ∧
    backoffDelay readmeRetryConfig 0 ≤ backoffDelay readmeRetryConfig 2 ∧
    (1000 + backoffDelay readmeRetryConfig sampleFailingJob.retryCount / 2 ≤
        1000 + applyJitter
          (backoffDelay readmeRetryConfig sampleFailingJob.retryCount)
          (1 / 4) ∧
      1000 + applyJitter
          (backoffDelay readmeRetryConfig sampleFailingJob.retryCount)
          (1 / 4) ≤
        1000 + 3 / 2 *
          backoffDelay readmeRetryConfig sampleFailingJob.retryCount) := by
  have h := backoff_monotone_and_jitter_bounded readmeRetryConfig
    (by norm_num [readmeRetryConfig]) (by norm_num [readmeRetryConfig])
  exact ⟨by norm_num [readmeRetryConfig], by norm_num [readmeRetryConfig],
    h.1 0 2 (by norm_num),
    h.2 sampleFailingJob .timeout 1000 (1 / 4) _ (by norm_num)
      (by norm_num) rfl⟩

/-- C4: `classify` returns `unhealthy` when `consecutiveFailures` reaches
the unhealthy threshold; `degraded` when (below that) it reaches the
degraded threshold or the average latency exceeds the ceiling; `healthy`
otherwise; and, given `unhealthyFailureThreshold ≥
degradedFailureThreshold`, increasing `consecutiveFailures` with the
latency fixed never improves the returned status. -/
theorem classify_cases_and_monotone (cfg : HealthConfig) (cf : Nat)
    (avg : ℚ) :
    (cfg.unhealthyFailureThreshold ≤ cf →
      classify cfg cf avg = .unhealthy) ∧
    (cf < cfg.unhealthyFailureThreshold →
      (cfg.degradedFailureThreshold ≤ cf ∨ cfg.latencyCeilingMs < avg) →
      classify cfg cf avg = .degraded) ∧
    (cf < cfg.unhealthyFailureThreshold →
      cf < cfg.degradedFailureThreshold → avg ≤ cfg.latencyCeilingMs →
      classify cfg cf avg = .healthy) ∧
    (cfg.degradedFailureThreshold ≤ cfg.unhealthyFailureThreshold →
      ∀ cf2, cf ≤ cf2 →
        (classify cfg cf avg).rank ≤ (classify cfg cf2 avg).rank) := by
  refine ⟨fun h => by simp [classify, h], ?_, ?_, ?_⟩
  · intro h1 h2
    have h1n : ¬ cfg.unhealthyFailureThreshold ≤ cf := by omega
    simp [classify, h1n, h2]
  · intro h1 h2 h3
    have h1n : ¬ cfg.unhealthyFailureThreshold ≤ cf := by omega
    have h2n : ¬ (cfg.degradedFailureThreshold ≤ cf ∨
        cfg.latencyCeilingMs < avg) := by
      push_neg
      exact ⟨by omega, h3⟩
    simp [classify, h1n, h2n]
  · intro _ cf2 hle
    by_cases h1 : cfg.unhealthyFailureThreshold ≤ cf
    · have h2 : cfg.unhealthyFailureThreshold ≤ cf2 := by omega
      simp [classify, h1, h2]
    · by_cases h3 : cfg.degradedFailureThreshold ≤ cf ∨
          cfg.latencyCeilingMs < avg
      · by_cases h2 : cfg.unhealthyFailureThreshold ≤ cf2
        · simp [classify, h1, h2, h3, HealthStatus.rank]
        · have h4 : cfg.degradedFailureThreshold ≤ cf2 ∨
              cfg.latencyCeilingMs < avg := by
            rcases h3 with h | h
            · exact Or.inl (by omega)
            · exact Or.inr h
          simp [classify, h1, h2, h3, h4, HealthStatus.rank]
      · simp only [classify, if_neg h1, if_neg h3]
        exact Nat.zero_le _

/-- Witness for C4 at the example thresholds of spec §4.1 (unhealthy at
5, degraded at 2, 1000ms ceiling): one consecutive failure at 500ms
average is `healthy`, and its rank does not exceed the rank at six
consecutive failures. -/
theorem classify_cases_and_monotone_witness :
    (1 < sampleHealthConfig.unhealthyFailureThreshold ∧
      1 < sampleHealthConfig.degradedFailureThreshold ∧
      (500 : ℚ) ≤ sampleHealthConfig.latencyCeilingMs) ∧
    classify sampleHealthConfig 1 500 = .healthy ∧
    (sampleHealthConfig.degradedFailureThreshold ≤
        sampleHealthConfig.unhealthyFailureThreshold ∧ 1 ≤ 6) ∧
    (classify sampleHealthConfig 1 500).rank ≤
      (classify sampleHealthConfig 6 500).rank := by
  have h := classify_cases_and_monotone sampleHealthConfig 1 500
  refine ⟨⟨by decide, by decide, by norm_num [sampleHealthConfig]⟩, ?_, ?_, ?_⟩
  · exact h.2.2.1 (by decide) (by decide) (by norm_num [sampleHealthConfig])
  · exact ⟨by decide, by decide⟩
  · exact h.2.2.2 (by decide) 6 (by decide)

/-- C9 (code evaluated at the failing input): the repository's job
status type is the closed five-value enumeration, and the current
`JobCard.tsx` icon map handles all five statuses, but the status icon
and color lookups of the jobs-list `JobCard` bundled in `Navbar.tsx`
(lines 91-103) are object literals with only four keys, so both lookups
are undefined (`none`) for a job whose status is `cancelled`. -/
theorem jobs_list_card_undefined_for_cancelled :
    jobsListStatusIcon JobStatus.cancelled = none ∧
    jobsListStatusColor JobStatus.cancelled = none ∧
    jobCardStatusIcon JobStatus.cancelled = CardIcon.xCircle :=
  ⟨rfl, rfl, rfl⟩

/-- C10: whenever the create-job page submits a job-creation request to
the backend, the request carries `maxRetries = 3`, regardless of the
form state — the form exposes no control for the retry ceiling. -/
theorem create_page_always_sends_maxRetries_three (s : CreateFormState)
    (p : CreateJobPayload) (h : handleSubmit s = some p) :
    p.maxRetries = 3 := by
  unfold handleSubmit at h
  by_cases h1 : jsBlank s.prompt = true
  · simp [h1] at h
  · by_cases h2 : s.isAuthenticated = false
    · simp [h1, h2] at h
    · simp [h1, h2] at h
      rw [← h]

/-- Witness for C10: the concrete filled-in form submits a payload, and
that payload's `maxRetries` is 3. -/
theorem create_page_always_sends_maxRetries_three_witness :
    handleSubmit sampleForm =
      some { prompt := "a sunset over the ocean", model := none,
             resolution := "1080p", quality := "high", duration := none,
             maxRetries := 3 } ∧
    ({ prompt := "a sunset over the ocean", model := none,
       resolution := "1080p", quality := "high", duration := none,
       maxRetries := 3 } : CreateJobPayload).maxRetries = 3 :=
  ⟨by decide,
    create_page_always_sends_maxRetries_three sampleForm _ (by decide)⟩

/-- C1 (counterexample): the claim as stated is false — a cancelled job
is terminal, yet the engine's user-initiated manual retry operation
mutates it: retrying `sampleCancelledJob` (cancelled, `retryCount = 0 <
maxRetries = 3`) re-queues it, so a field of a terminal job is mutated
by a subsequent operation. -/
theorem terminal_jobs_mutated_by_manual_retry :
    sampleCancelledJob.status.isTerminal = true ∧
    applyOp .retryRequest sampleCancelledJob ≠ sampleCancelledJob ∧
    (applyOp .retryRequest sampleCancelledJob).status = .queued := by
  refine ⟨rfl, ?_, by decide⟩
  intro h
  have := congrArg Job.status h
  simp [applyOp, manualRetry, sampleCancelledJob, sampleQueuedJob] at this

/-- C1 (amended): `retryCount ≤ maxRetries` is preserved by every engine
operation, and a job in terminal status is never mutated by any engine
operation except the user-initiated manual retry; a manual retry mutates
a terminal job only when it is `failed` or `cancelled` with
`retryCount < maxRetries`, and then only re-queues it with `retryCount`
preserved. -/
theorem retry_bound_invariant_and_terminal_immutable (op : EngineOp)
    (j : Job) (hinv : j.retryCount ≤ j.maxRetries) :
    (applyOp op j).retryCount ≤ (applyOp op j).maxRetries ∧
    (j.status.isTerminal = true → op ≠ .retryRequest → applyOp op j = j) ∧
    (j.status.isTerminal = true → applyOp op j ≠ j →
      op = .retryRequest ∧
        (j.status = .failed ∨ j.status = .cancelled) ∧
        j.retryCount < j.maxRetries ∧
        (applyOp op j).retryCount = j.retryCount ∧
        (applyOp op j).status = .queued) := by
  have hterm : j.status.isTerminal = true →
      j.status ≠ .queued ∧ j.status ≠ .processing := by
    intro h
    cases hs : j.status <;> simp [hs, JobStatus.isTerminal] at h ⊢
  cases op with
  | claim now =>
    refine ⟨?_, ?_, ?_⟩
    · simp only [applyOp, tryClaim]
      split <;> simpa using hinv
    · intro ht _
      obtain ⟨hq, _⟩ := hterm ht
      simp [applyOp, tryClaim, hq]
    · intro ht hne
      obtain ⟨hq, _⟩ := hterm ht
      exact absurd (by simp [applyOp, tryClaim, hq]) hne
  | complete now res provider model genMs =>
    refine ⟨?_, ?_, ?_⟩
    · simp only [applyOp, completeJob]
      split <;> simpa using hinv
    · intro ht _
      obtain ⟨_, hp⟩ := hterm ht
      simp [applyOp, completeJob, hp]
    · intro ht hne
      obtain ⟨_, hp⟩ := hterm ht
      exact absurd (by simp [applyOp, completeJob, hp]) hne
  | fail cfg reason msg now u =>
    refine ⟨?_, ?_, ?_⟩
    · simp only [applyOp, failJob]
      split
      · split
        · simpa using hinv
        · rename_i hdec
          have : ¬ j.maxRetries < j.retryCount + 1 := by
            intro hc
            simp [onFailure, hc] at hdec
          simpa using by omega
      · simpa using hinv
    · intro ht _
      obtain ⟨_, hp⟩ := hterm ht
      simp [applyOp, failJob, hp]
    · intro ht hne
      obtain ⟨_, hp⟩ := hterm ht
      exact absurd (by simp [applyOp, failJob, hp]) hne
  | cancel =>
    refine ⟨?_, ?_, ?_⟩
    · simp only [applyOp, cancelJob]
      split <;> simpa using hinv
    · intro ht _
      obtain ⟨hq, hp⟩ := hterm ht
      simp [applyOp, cancelJob, hq, hp]
    · intro ht hne
      obtain ⟨hq, hp⟩ := hterm ht
      exact absurd (by simp [applyOp, cancelJob, hq, hp]) hne
  | retryRequest =>
    refine ⟨?_, ?_, ?_⟩
    · cases h : manualRetry j with
      | error msg =>
        simpa [applyOp, h] using hinv
      | ok j2 =>
        have hj2 : j2.retryCount = j.retryCount ∧
            j2.maxRetries = j.maxRetries := by
          unfold manualRetry at h
          split at h
          · exact absurd h (by simp)
          · split at h
            · exact absurd h (by simp)
            · simp at h
              rw [← h]
              exact ⟨rfl, rfl⟩
        have h1 := hj2.1
        have h2 := hj2.2
        simp only [applyOp, h]
        omega
    · intro _ hop
      exact absurd rfl hop
    · intro _ hne
      refine ⟨rfl, ?_⟩
      by_cases hs : j.status = .failed ∨ j.status = .cancelled
      · by_cases hr : j.maxRetries ≤ j.retryCount
        · exact absurd (by simp [applyOp, manualRetry, hs, hr]) hne
        · refine ⟨hs, by omega, ?_, ?_⟩ <;>
            simp [applyOp, manualRetry, hs, hr]
      · exact absurd (by simp [applyOp, manualRetry, hs]) hne

/-- Witness for the amended C1: cancelling the already-failed
`sampleFailedJob` (terminal, `retryCount = maxRetries = 3`) preserves
the retry bound and leaves the record untouched. -/
theorem retry_bound_invariant_and_terminal_immutable_witness :
    sampleFailedJob.retryCount ≤ sampleFailedJob.maxRetries ∧
    sampleFailedJob.status.isTerminal = true ∧
    applyOp .cancel sampleFailedJob = sampleFailedJob := by
  have h := retry_bound_invariant_and_terminal_immutable .cancel
    sampleFailedJob (by decide)
  exact ⟨by decide, by decide, h.2.1 (by decide) (by simp)⟩

/-- C6: a manual retry of a job whose retries are exhausted or whose
status is not retriable is rejected synchronously with a descriptive
(non-empty) reason and leaves the job unchanged; and a successful manual
retry of a failed or cancelled job never resets `retryCount`. -/
theorem manual_retry_rejection_and_count_preserved (j : Job) :
    (j.maxRetries ≤ j.retryCount ∨
        ¬(j.status = .failed ∨ j.status = .cancelled) →
      ∃ msg, manualRetry j = .error msg ∧ msg ≠ "" ∧
        applyOp .retryRequest j = j) ∧
    (∀ j2, manualRetry j = .ok j2 → j2.retryCount = j.retryCount) := by
  constructor
  · intro h
    by_cases hs : j.status = .failed ∨ j.status = .cancelled
    · have hr : j.maxRetries ≤ j.retryCount := by tauto
      refine ⟨"retries already exhausted", ?_, by simp, ?_⟩ <;>
        simp [manualRetry, applyOp, hs, hr]
    · refine ⟨"job is not in a retriable status", ?_, by simp, ?_⟩ <;>
        simp [manualRetry, applyOp, hs]
  · intro j2 h
    unfold manualRetry at h
    split at h
    · exact absurd h (by simp)
    · split at h
      · exact absurd h (by simp)
      · simp at h
        rw [← h]

/-- Witness for C6: the exhausted `sampleFailedJob`
(`retryCount = maxRetries = 3`) is rejected with a non-empty reason and
left unchanged. -/
theorem manual_retry_rejection_and_count_preserved_witness :
    sampleFailedJob.maxRetries ≤ sampleFailedJob.retryCount ∧
    ∃ msg, manualRetry sampleFailedJob = .error msg ∧ msg ≠ "" ∧
      applyOp .retryRequest sampleFailedJob = sampleFailedJob :=
  ⟨by decide,
    (manual_retry_rejection_and_count_preserved sampleFailedJob).1
      (Or.inl (by decide))⟩

/-- C7: cancellation succeeds exactly while a job is not yet terminal
and is idempotent: cancelling a queued (or processing) job immediately
yields `cancelled`; cancelling an already-cancelled job is a no-op
rather than an error; cancelling an already-completed job is a no-op
returning the unchanged job. -/
theorem cancel_guarded_and_idempotent (j : Job) :
    (j.status = .queued → (cancelJob j).status = .cancelled) ∧
    (j.status = .processing → (cancelJob j).status = .cancelled) ∧
    (j.status = .cancelled → cancelJob j = j) ∧
    (j.status = .completed → cancelJob j = j) ∧
    (j.status.isTerminal = true → cancelJob j = j) := by
  refine ⟨?_, ?_, ?_, ?_, ?_⟩ <;> intro h
  · simp [cancelJob, h]
  · simp [cancelJob, h]
  · simp [cancelJob, h]
  · simp [cancelJob, h]
  · cases hs : j.status <;> simp [hs, JobStatus.isTerminal] at h ⊢ <;>
      simp [cancelJob, hs]

/-- Witness for C7: cancelling the queued `sampleQueuedJob` yields
`cancelled`, and cancelling the completed `sampleCompletedJob` returns
it unchanged. -/
theorem cancel_guarded_and_idempotent_witness :
    sampleQueuedJob.status = .queued ∧
    (cancelJob sampleQueuedJob).status = .cancelled ∧
    (sampleCompletedJob.status = .completed ∧
      cancelJob sampleCompletedJob = sampleCompletedJob) :=
  ⟨rfl, (cancel_guarded_and_idempotent sampleQueuedJob).1 rfl,
    rfl, (cancel_guarded_and_idempotent sampleCompletedJob).2.2.2.1 rfl⟩

/-- C8: for any number `n ≥ 1` of serialized concurrent claim attempts
on a single eligible queued job, exactly one attempt succeeds in
transitioning the job to `processing`; every other attempt observes the
job already claimed (the claim on a non-queued job reports `false` and
is a no-op for the losing worker, not an error). -/
theorem concurrent_claims_exactly_one (now : ℚ) (n : Nat) (j : Job)
    (hq : j.status = .queued) (he : j.eligibleAt now = true)
    (hn : 1 ≤ n) :
    (runClaims now n j).1 = 1 ∧
    (runClaims now n j).2.status = .processing ∧
    (∀ j2 : Job, j2.status ≠ .queued → tryClaim now j2 = (false, j2)) := by
  have hnoop : ∀ j2 : Job, j2.status ≠ .queued →
      tryClaim now j2 = (false, j2) := by
    intro j2 h2
    unfold tryClaim
    simp [h2]
  obtain ⟨m, rfl⟩ : ∃ m, n = m + 1 := ⟨n - 1, by omega⟩
  have hfirst : tryClaim now j =
      (true, { j with status := .processing,
                      startedAt := some (j.startedAt.getD now) }) := by
    unfold tryClaim
    simp [hq, he]
  have hrest := runClaims_stuck now m
    { j with status := .processing,
             startedAt := some (j.startedAt.getD now) } (by simp)
  refine ⟨?_, ?_, hnoop⟩ <;> simp [runClaims, hfirst, hrest]

/-- Witness for C8: three serialized claim attempts on the eligible
`sampleQueuedJob` yield exactly one success and leave the job
`processing`. -/
theorem concurrent_claims_exactly_one_witness :
    (sampleQueuedJob.status = .queued ∧
      sampleQueuedJob.eligibleAt 5 = true ∧ 1 ≤ 3) ∧
    (runClaims 5 3 sampleQueuedJob).1 = 1 ∧
    (runClaims 5 3 sampleQueuedJob).2.status = .processing :=
  ⟨⟨rfl, rfl, by omega⟩,
    (concurrent_claims_exactly_one 5 3 sampleQueuedJob rfl rfl
      (by omega)).1,
    (concurrent_claims_exactly_one 5 3 sampleQueuedJob rfl rfl
      (by omega)).2.1⟩

/-- C5: any provider returned by `select` is one of the candidates and
is never classified `unhealthy` unless the degraded-mode fallback is
enabled and every candidate is unhealthy; `select` signals no provider
(`none`) when the filtered set is empty and the fallback is disabled; a
hinted provider found among the non-unhealthy remainder is preferred;
and otherwise the returned provider is top-ranked — no eligible
candidate ranks strictly better by status, then latency, then cost. -/
theorem provider_selector_correct (fallbackEnabled : Bool)
    (candidates : List ProviderHealth) (jobHint : Option String) :
    (∀ p, select fallbackEnabled candidates jobHint = some p →
      p ∈ candidates) ∧
    (∀ p, select fallbackEnabled candidates jobHint = some p →
      p.status ≠ .unhealthy ∨
        (fallbackEnabled = true ∧
          ∀ q ∈ candidates, q.status = .unhealthy)) ∧
    (eligibleProviders candidates = [] → fallbackEnabled = false →
      select fallbackEnabled candidates jobHint = none) ∧
    (∀ name p, jobHint = some name →
      (eligibleProviders candidates).find?
          (fun q => decide (q.provider = name)) = some p →
      select fallbackEnabled candidates jobHint = some p) ∧
    (∀ p, select fallbackEnabled candidates jobHint = some p →
      (∀ name, jobHint = some name →
        (eligibleProviders candidates).find?
          (fun q => decide (q.provider = name)) = none) →
      ∀ q ∈ candidates, q.status ≠ .unhealthy → ¬ Better q p) := by
  by_cases hemp : (eligibleProviders candidates).isEmpty = true
  · have hnil : eligibleProviders candidates = [] :=
      List.isEmpty_iff.mp hemp
    have hall : ∀ q ∈ candidates, q.status = .unhealthy :=
      eligibleProviders_eq_nil.mp hnil
    refine ⟨?_, ?_, ?_, ?_, ?_⟩
    · intro p hp
      rw [select_of_empty hemp] at hp
      split at hp
      · exact pickBest_mem hp
      · exact absurd hp (by simp)
    · intro p hp
      rw [select_of_empty hemp] at hp
      split at hp
      · rename_i hfb
        exact Or.inr ⟨hfb, hall⟩
      · exact absurd hp (by simp)
    · intro _ hfb
      rw [select_of_empty hemp, if_neg]
      simp [hfb]
    · intro name p _ hfind
      rw [hnil] at hfind
      exact absurd hfind (by simp)
    · intro p _ _ q hq hqn
      exact absurd (hall q hq) hqn
  · have hsel : ∀ p, select fallbackEnabled candidates jobHint = some p →
        p ∈ eligibleProviders candidates := by
      intro p hp
      cases hhint : jobHint with
      | none =>
        rw [hhint, select_of_nonempty_no_hint hemp] at hp
        exact pickBest_mem hp
      | some name =>
        rw [hhint] at hp
        cases hfind : (eligibleProviders candidates).find?
            (fun q => decide (q.provider = name)) with
        | none =>
          rw [select_of_nonempty_hint_missing hemp _ hfind] at hp
          exact pickBest_mem hp
        | some b =>
          rw [select_of_nonempty_hint_found hemp _ hfind] at hp
          simp at hp
          rw [← hp]
          exact List.mem_of_find?_eq_some hfind
    refine ⟨?_, ?_, ?_, ?_, ?_⟩
    · intro p hp
      exact eligibleProviders_subset (hsel p hp)
    · intro p hp
      exact Or.inl (mem_eligibleProviders.mp (hsel p hp)).2
    · intro hnil
      exact absurd (List.isEmpty_iff.mpr hnil) hemp
    · intro name p hhint hfind
      rw [hhint]
      exact select_of_nonempty_hint_found hemp _ hfind
    · intro p hp hnone q hq hqn
      have hqelig : q ∈ eligibleProviders candidates :=
        mem_eligibleProviders.mpr ⟨hq, hqn⟩
      have hpick : pickBest (eligibleProviders candidates) = some p := by
        cases hhint : jobHint with
        | none =>
          rw [hhint, select_of_nonempty_no_hint hemp] at hp
          exact hp
        | some name =>
          rw [hhint,
            select_of_nonempty_hint_missing hemp _ (hnone name hhint)] at hp
          exact hp
      exact pickBest_min hpick q hqelig

/-- Witness for C5: with candidates `[sampleUnhealthy, sampleDegraded,
sampleHealthy]`, no hint, and the fallback disabled, the selector
returns `sampleHealthy`, which is in the candidate set, is not
unhealthy, and is not outranked by the degraded eligible candidate. -/
theorem provider_selector_correct_witness :
    select false [sampleUnhealthy, sampleDegraded, sampleHealthy] none =
      some sampleHealthy ∧
    sampleHealthy ∈ [sampleUnhealthy, sampleDegraded, sampleHealthy] ∧
    (sampleHealthy.status ≠ .unhealthy ∨
      (false = true ∧ ∀ q ∈ [sampleUnhealthy, sampleDegraded,
        sampleHealthy], q.status = .unhealthy)) ∧
    ¬ Better sampleDegraded sampleHealthy := by
  have hs : select false [sampleUnhealthy, sampleDegraded, sampleHealthy]
      none = some sampleHealthy := by decide
  have h := provider_selector_correct false
    [sampleUnhealthy, sampleDegraded, sampleHealthy] none
  refine ⟨hs, h.1 sampleHealthy hs, h.2.1 sampleHealthy hs, ?_⟩
  exact h.2.2.2.2 sampleHealthy hs (fun name hname => by simp at hname)
    sampleDegraded (by simp) (by decide)

end VideoGen
